import Mathlib

/-!
Verification of the job-submission / completion-watcher core of
`anime_generator.py` (ai-content-creator).

The Python functions `queue_prompt`, `get_media_outputs`,
`wait_for_completion`, `persist_media_locally` (extension choice),
`resolve_local_media_path`, `generate_images` and `generate_image_edit`
are shallowly embedded below.  Network effects are modelled by passing
the engine's responses as explicit values: a `FetchResult` is either a
parsed HTTP-200 body, a non-200 status, or a raised transport error
(`requests.exceptions.RequestException`, which the Python code catches).
Real time is modelled in half-second ticks, the polling interval of the
watcher loop.
-/

/-- A raw media descriptor as it appears inside a ComfyUI history
response: either a JSON object (we record the keys the code reads:
`filename`, `subfolder`, `type`, `format`, `extension`; a field holding
`none` models an absent key), a bare string, or any other JSON value
(which the normalisation loops skip via their `isinstance` checks). -/
structure MediaDict where
  filename : Option String
  subfolder : Option String
  type : Option String
  format : Option String
  extension : Option String
deriving DecidableEq

inductive MediaItem where
  | dict (d : MediaDict)
  | str (s : String)
  | other
deriving DecidableEq

/-- The value stored under a media key of a node output block: the code
distinguishes a JSON list from a scalar (`isinstance(media, list)`). -/
inductive MediaVal where
  | list (xs : List MediaItem)
  | single (x : MediaItem)
deriving DecidableEq

/-- A node output block: mapping from media keys (`images`, `video`, ...)
to values, as an association list (Python dict). -/
abbrev NodeOutputs := List (String × MediaVal)

/-- One entry of the history store: a dict that may or may not carry an
`outputs` key mapping node ids to their output blocks. -/
structure HistEntry where
  outputs : Option (List (String × NodeOutputs))
deriving DecidableEq

/-- Full history collection: `job_id -> entry` (Python dict). -/
abbrev History := List (String × HistEntry)

/-- The parsed body of `GET /history/{prompt_id}`.  The code checks two
candidate containers: the response itself when it has a top-level
`outputs` key (`outputs` field below), and the dict stored under the
`prompt_id` key (an entry of `byId`).  Keys of `byId` other than the
requested `prompt_id` are never read. -/
structure HistoryData where
  outputs : Option (List (String × NodeOutputs))
  byId : List (String × HistEntry)

/-- Result of one `requests.get`: parsed 200 body, non-200 status, or a
raised `RequestException` (body parse failures raise a
`RequestException` subclass in the `requests` version used). -/
inductive FetchResult (α : Type) where
  | success (body : α)
  | httpError (status : Nat)
  | transportError

/-- The engine state seen by one call of `get_media_outputs`: the
response of the per-job endpoint `/history/{prompt_id}` and of the full
collection endpoint `/history`. -/
structure EngineState where
  perJob : FetchResult HistoryData
  fullHist : FetchResult History

/-- `target_nodes = target_nodes or ["19"]`: `None` and the empty list
are falsy in Python, both select the default `["19"]`. -/
def defaultTargets (target_nodes : Option (List String)) : List String :=
  match target_nodes with
  | some (n :: rest) => n :: rest
  | _ => ["19"]

/-- The ordered key list built at the top of `get_media_outputs`:
`[media_key]` extended with the kind-specific fallbacks. -/
def possibleKeys (media_key : String) : List String :=
  if media_key = "videos" then [media_key, "video", "files", "images"]
  else if media_key = "images" then [media_key, "image", "files"]
  else [media_key, "videos", "images", "files"]

/-- `if isinstance(media, list): return media / return [media]`. -/
def mediaValAsList : MediaVal → List MediaItem
  | .list xs => xs
  | .single x => [x]

/-- Inner key loop: `for key in possible_keys: if key in node_outputs:
return ...` — first key present wins. -/
def searchKeys (nodeOut : NodeOutputs) : List String → Option (List MediaItem)
  | [] => none
  | k :: rest =>
    match nodeOut.lookup k with
    | some v => some (mediaValAsList v)
    | none => searchKeys nodeOut rest

/-- Outer node loop: `for node_id in target_nodes: if node_id in
candidate["outputs"]: ...` — a node that is present but has none of the
acceptable keys is skipped and the next target node is tried. -/
def searchNodes (outs : List (String × NodeOutputs)) :
    List String → List String → Option (List MediaItem)
  | [], _ => none
  | n :: tn, keys =>
    match outs.lookup n with
    | some nodeOut =>
      match searchKeys nodeOut keys with
      | some m => some m
      | none => searchNodes outs tn keys
    | none => searchNodes outs tn keys

/-- First `some` of a list of attempts (the code returns from inside the
first loop iteration that finds media). -/
def firstSome {α : Type} : List (Option α) → Option α
  | [] => none
  | some a :: _ => some a
  | none :: rest => firstSome rest

/-- Step 1 of the resolver: the candidate containers of the
`/history/{prompt_id}` body, searched in order; a candidate without an
`outputs` key is skipped (`if "outputs" not in candidate: continue`). -/
def perJobSearch (hd : HistoryData) (prompt_id : String)
    (tn keys : List String) : Option (List MediaItem) :=
  let cands : List HistEntry :=
    (match hd.outputs with
     | some o => [⟨some o⟩]
     | none => []) ++
    (match hd.byId.lookup prompt_id with
     | some e => [e]
     | none => [])
  firstSome (cands.map (fun c =>
    match c.outputs with
    | some outs => searchNodes outs tn keys
    | none => none))

/-- Direct lookup of `prompt_id` as a key of the full history dict,
then the same per-node / per-key search. -/
def directSearch (hist : History) (prompt_id : String)
    (tn keys : List String) : Option (List MediaItem) :=
  match hist.lookup prompt_id with
  | some e =>
    match e.outputs with
    | some outs => searchNodes outs tn keys
    | none => none
  | none => none

/-- The node loop of the last-resort scan iterates the entry's `outputs`
dict in stored order and keeps nodes with `node_id in target_nodes`. -/
def searchOutputsOrder :
    List (String × NodeOutputs) → List String → List String → Option (List MediaItem)
  | [], _, _ => none
  | (node_id, nodeOut) :: rest, tn, keys =>
    if tn.contains node_id then
      match searchKeys nodeOut keys with
      | some m => some m
      | none => searchOutputsOrder rest tn keys
    else searchOutputsOrder rest tn keys

/-- The last-resort loop of `get_media_outputs`: `for key, value in
history.items(): if key == prompt_id and isinstance(value, dict) and
"outputs" in value: ...` — note the `key == prompt_id` guard: only
entries stored under the job's own id are examined. -/
def lastResort (hist : History) (prompt_id : String)
    (tn keys : List String) : Option (List MediaItem) :=
  firstSome (hist.map (fun e =>
    if e.1 = prompt_id then
      match e.2.outputs with
      | some outs => searchOutputsOrder outs tn keys
      | none => none
    else none))

/-- The last-resort scan as the specification words it: every entry's
`outputs` substructure is searched, not only the entry keyed by the
job id.  Kept for comparison against `lastResort` above. -/
def lastResortSpecScan (hist : History) (tn keys : List String) :
    Option (List MediaItem) :=
  firstSome (hist.map (fun e =>
    match e.2.outputs with
    | some outs => searchOutputsOrder outs tn keys
    | none => none))

/-- Search of the full `/history` body: direct key lookup first, then
the last-resort loop. -/
def fullHistorySearch (hist : History) (prompt_id : String)
    (tn keys : List String) : Option (List MediaItem) :=
  match directSearch hist prompt_id tn keys with
  | some m => some m
  | none => lastResort hist prompt_id tn keys

/-- `get_media_outputs(prompt_id, target_nodes, media_key)`.  A raised
transport error or a non-200 status on the per-job endpoint falls
through to the full-history fallback; on the full-history request it is
caught by the outer `except` (resp. skips the 200 branch) and yields
`None`.  `None` is also returned when every search level fails. -/
def get_media_outputs (eng : EngineState) (prompt_id : String)
    (target_nodes : Option (List String)) (media_key : String) :
    Option (List MediaItem) :=
  let tn := defaultTargets target_nodes
  let keys := possibleKeys media_key
  let step1 :=
    match eng.perJob with
    | .success hd => perJobSearch hd prompt_id tn keys
    | _ => none
  match step1 with
  | some m => some m
  | none =>
    match eng.fullHist with
    | .success hist => fullHistorySearch hist prompt_id tn keys
    | _ => none

/-! ## The completion watcher `wait_for_completion` -/

/-- Normalisation of one raw descriptor as performed by the immediate
check and the poll loop of `wait_for_completion`: a dict keeps
`filename` (default `""`), `subfolder` (default `""`) and `type`
(default `"output"`); a bare string `s` becomes
`{filename: s, subfolder: "", type: "output"}`; anything else is
dropped by the `isinstance` checks. -/
def normItem : MediaItem → Option MediaItem
  | .dict d => some (.dict ⟨some (d.filename.getD ""), some (d.subfolder.getD ""),
      some (d.type.getD "output"), none, none⟩)
  | .str s => some (.dict ⟨some s, some "", some "output", none, none⟩)
  | .other => none

/-- The `valid_media` list built from a raw resolver result. -/
def validMedia (items : List MediaItem) : List MediaItem :=
  items.filterMap normItem

/-- An item is in normalised shape when it is a dict carrying exactly
the keys `filename`, `subfolder` and `type`. -/
def isNormalizedItem : MediaItem → Bool
  | .dict d => d.filename.isSome && d.subfolder.isSome && d.type.isSome
      && d.format.isNone && d.extension.isNone
  | _ => false

/-- One watcher run's environment: `resolve k` is the value of the
`k`-th call to `get_media_outputs` (`none` models the `None` return),
and `completedAt t` is the value of the WebSocket listener's
`execution_completed` flag when the loop reads it at elapsed time `t`
(half-second ticks). -/
structure WatchEnv where
  resolve : Nat → Option (List MediaItem)
  completedAt : Nat → Bool

/-- `if media_info and len(media_info) > 0: valid_media = ...` — the
normalised list produced from one resolver call, `[]` when the call
yielded nothing (or only items the `isinstance` checks drop). -/
def foundOf : Option (List MediaItem) → List MediaItem
  | some l => if l.isEmpty then [] else validMedia l
  | none => []

/-- The `while time.time() - start_time < max_wait` loop.  Time is
counted in half-second ticks: the unconditional `time.sleep(0.5)` costs
one tick, the `time.sleep(2)` grace wait of the completed branch four.
The bookkeeping with `last_check` lets every iteration poll (each
iteration sleeps at least the 0.5s interval).  Returns the `media_items`
the loop broke with (`[]` on timeout) and the index of the next unused
resolver call. -/
def pollLoop (env : WatchEnv) (maxWait callIdx elapsed : Nat) :
    List MediaItem × Nat :=
  if h : elapsed < maxWait then
    if foundOf (env.resolve callIdx) = [] then
      if env.completedAt elapsed then
        if foundOf (env.resolve (callIdx + 1)) = [] then
          pollLoop env maxWait (callIdx + 2) (elapsed + 5)
        else (foundOf (env.resolve (callIdx + 1)), callIdx + 2)
      else pollLoop env maxWait (callIdx + 1) (elapsed + 1)
    else (foundOf (env.resolve callIdx), callIdx + 1)
  else ([], callIdx)
termination_by maxWait - elapsed
decreasing_by
  all_goals omega

/-- `wait_for_completion(client_id, prompt_id, max_wait, target_nodes,
media_key)`: immediate check, poll loop, then — when still empty — one
final resolution whose result is returned raw (`media_items =
media_info`), without the normalisation applied on the other paths.
`max_wait` is in half-second ticks. -/
def wait_for_completion (env : WatchEnv) (maxWait : Nat) : List MediaItem :=
  let immediate := foundOf (env.resolve 0)
  if immediate = [] then
    let r := pollLoop env maxWait 1 0
    if r.1 = [] then (env.resolve r.2).getD [] else r.1
  else immediate

/-! ## Media persistence: extension choice (`persist_media_locally`) -/

/-- `os.path.splitext(name)[1]` for a bare filename (no directory
separators): the extension starts at the last dot, unless every
character before that dot is itself a dot (so `".bashrc"` has no
extension). -/
def splitextExt (name : String) : String :=
  let cs := name.toList
  match cs.reverse.findIdx? (fun c => c = '.') with
  | none => ""
  | some j =>
    let i := cs.length - 1 - j
    if (cs.take i).any (fun c => c ≠ '.') then String.mk (cs.drop i) else ""

/-- Model of the stdlib `mimetypes.guess_extension` lookup for the
content types the engine serves. -/
def guessExtension (ct : String) : Option String :=
  if ct = "image/png" then some ".png"
  else if ct = "image/jpeg" then some ".jpg"
  else if ct = "image/gif" then some ".gif"
  else if ct = "image/webp" then some ".webp"
  else if ct = "video/mp4" then some ".mp4"
  else if ct = "video/webm" then some ".webm"
  else none

/-- `".mp4" if media_category == "videos" else ".png"`. -/
def categoryDefault (media_category : String) : String :=
  if media_category = "videos" then ".mp4" else ".png"

/-- The `elif content_type:` arm: guess from the mime type before the
`;` parameter separator, falling back to the category default. -/
def contentTypeExt (content_type media_category : String) : String :=
  if content_type ≠ "" then
    match guessExtension ((content_type.splitOn ";").headD "") with
    | some g => g
    | none => categoryDefault media_category
  else categoryDefault media_category

/-- Lines 941-950 of `persist_media_locally`: choose the local file
extension.  `format_hint` is `item.get("format") or item.get("extension")`;
`some ""` is Python-falsy and treated like `none`.  The descriptor's own
filename extension is consulted FIRST; only when it is empty does the
format hint, then the response content type, then the category default
apply. -/
def persist_media_extension (remote_filename : String)
    (format_hint : Option String) (content_type media_category : String) :
    String :=
  let extension := splitextExt remote_filename
  if extension ≠ "" then extension
  else
    match format_hint with
    | some fh =>
      if fh ≠ "" then "." ++ String.mk (fh.toList.dropWhile (fun c => c = '.'))
      else contentTypeExt content_type media_category
    | none => contentTypeExt content_type media_category

/-- The extension priority in the order the specification words it:
format hint first, then the descriptor's own filename extension, then
the content-type guess, then the category default.  Kept for comparison
against `persist_media_extension` above. -/
def persistExtensionSpecOrder (remote_filename : String)
    (format_hint : Option String) (content_type media_category : String) :
    String :=
  let fromName :=
    let extension := splitextExt remote_filename
    if extension ≠ "" then extension
    else contentTypeExt content_type media_category
  match format_hint with
  | some fh =>
    if fh ≠ "" then "." ++ String.mk (fh.toList.dropWhile (fun c => c = '.'))
    else fromName
  | none => fromName

/-! ## Local path containment (`resolve_local_media_path`)

Paths are modelled in POSIX style as lists of components (lists of
characters); `os.path.abspath(os.path.join(dir, name))` for an absolute
`dir` is component concatenation followed by `normpath` (collapsing `.`
and `..`), and rendering inserts one `/` before each component. -/

/-- Split a character list at `/` (the separators themselves are
dropped later by the empty-component filter). -/
def splitSlash : List Char → List (List Char)
  | [] => [[]]
  | c :: rest =>
    if c = '/' then [] :: splitSlash rest
    else
      match splitSlash rest with
      | h :: t => (c :: h) :: t
      | [] => [[c]]

/-- Path components of a string: split at `/`, dropping empties. -/
def splitPath (s : String) : List (List Char) :=
  (splitSlash s.toList).filter (fun c => !c.isEmpty)

/-- `posixpath.normpath` on an absolute component list: `.` vanishes,
`..` pops (at the root it stays at the root).  The accumulator holds the
processed components in reverse. -/
def normAux : List (List Char) → List (List Char) → List (List Char)
  | acc, [] => acc.reverse
  | acc, c :: rest =>
    if c = ['.'] then normAux acc rest
    else if c = ['.', '.'] then normAux acc.tail rest
    else normAux (c :: acc) rest

/-- Render an absolute path from its components. -/
def renderAbs (comps : List (List Char)) : List Char :=
  if comps.isEmpty then ['/'] else comps.flatMap (fun c => '/' :: c)

/-- `os.path.sep in filename or (os.path.altsep and os.path.altsep in
filename)`. -/
def sepHit (sep : Char) (altsep : Option Char) (filename : String) : Bool :=
  filename.toList.contains sep ||
    (match altsep with
     | some a => filename.toList.contains a
     | none => false)

/-- `candidate.startswith(root + "/")` and `candidate != root`: the
candidate lies strictly below the root directory. -/
def strictlyInside (root candidate : List Char) : Bool :=
  List.isPrefixOf (root ++ ['/']) candidate

/-- `resolve_local_media_path(filename)` over output directory
`outputDir` (an absolute path) and the running OS's separators.  The
join/normalisation model is POSIX; on the Windows instantiation only
the separator rejection (which happens before any join) is used. -/
def resolve_local_media_path (sep : Char) (altsep : Option Char)
    (outputDir filename : String) : Except String String :=
  if filename.toList.isEmpty then .error "Local filename is required"
  else if sepHit sep altsep filename then .error "Invalid local filename"
  else if List.isPrefixOf (renderAbs (normAux [] (splitPath outputDir)))
      (renderAbs (normAux [] (splitPath outputDir ++ splitPath filename))) then
    .ok (String.mk (renderAbs (normAux [] (splitPath outputDir ++ splitPath filename))))
  else .error "Local filename resolves outside of output directory"

/-! ## JSON documents and workflow templates -/

/-- JSON values, for workflow documents and response bodies. -/
inductive JVal where
  | str (s : String)
  | num (n : Int)
  | bool (b : Bool)
  | null
  | arr (xs : List JVal)
  | obj (fields : List (String × JVal))

mutual

/-- `json.loads(json.dumps(w))` on a JSON-representable document: the
serialise/parse round trip rebuilds every node, yielding a deep copy
that shares no mutable substructure with the original. -/
def jsonRoundtrip : JVal → JVal
  | .str s => .str s
  | .num n => .num n
  | .bool b => .bool b
  | .null => .null
  | .arr xs => .arr (jsonRoundtripList xs)
  | .obj fs => .obj (jsonRoundtripFields fs)

def jsonRoundtripList : List JVal → List JVal
  | [] => []
  | x :: xs => jsonRoundtrip x :: jsonRoundtripList xs

def jsonRoundtripFields : List (String × JVal) → List (String × JVal)
  | [] => []
  | (k, v) :: rest => (k, jsonRoundtrip v) :: jsonRoundtripFields rest

end

/-- Field lookup on a JSON object (`d[k]` / `k in d`). -/
def getField (j : JVal) (k : String) : Option JVal :=
  match j with
  | .obj fs => fs.lookup k
  | _ => none

/-- Python dict assignment `d[k] = v`: replace in place when the key
exists, append otherwise. -/
def setKey : List (String × JVal) → String → JVal → List (String × JVal)
  | [], k, v => [(k, v)]
  | (k', v') :: rest, k, v =>
    if k' = k then (k, v) :: rest else (k', v') :: setKey rest k v

/-- `workflow[node]["inputs"][key] = v` guarded by `node in workflow and
"inputs" in workflow[node]` (workflow nodes are well-formed objects with
object-valued `inputs`). -/
def updateNodeInput (w : JVal) (node key : String) (v : JVal) : JVal :=
  match w with
  | .obj nodes =>
    match nodes.lookup node with
    | some (.obj nf) =>
      match nf.lookup "inputs" with
      | some (.obj ins) =>
        .obj (setKey nodes node (.obj (setKey nf "inputs" (.obj (setKey ins key v)))))
      | _ => w
    | _ => w
  | _ => w

/-- `key in workflow[node]["inputs"]`. -/
def hasNodeInput (w : JVal) (node key : String) : Bool :=
  match getField w node with
  | some nj =>
    match getField nj "inputs" with
    | some (.obj ins) => (ins.lookup key).isSome
    | _ => false
  | none => false

/-- Conditional assignment used for the sampler nodes:
`if key in inputs: inputs[key] = v`. -/
def updateExistingInput (w : JVal) (node key : String) (v : JVal) : JVal :=
  if hasNodeInput w node key then updateNodeInput w node key v else w

/-- `workflow.get(node, {}).get("inputs", {}).get(key, "")` for the
string-valued prompt fields of the templates. -/
def getNodeText (w : JVal) (node key : String) : String :=
  match getField w node with
  | some nj =>
    match getField nj "inputs" with
    | some ij =>
      match getField ij key with
      | some (.str s) => s
      | _ => ""
    | none => ""
  | none => ""

/-- The `for node_id in nodes: base = ...; if base: break` scan: the
first non-empty prompt text found among the given nodes (`""` when all
are empty, which is all later uses distinguish). -/
def firstText (w : JVal) (nodes : List String) (key : String) : String :=
  match nodes with
  | [] => ""
  | n :: rest =>
    let t := getNodeText w n key
    if t ≠ "" then t else firstText w rest key

/-- Build the new positive prompt of `generate_images`. -/
def buildPositive (base positive_prompt : String) : String :=
  if base ≠ "" then
    let parts := base.splitOn "<Prompt Start>"
    if parts.length > 1 then
      parts.headD "" ++ "<Prompt Start> Digital anime illustration " ++ positive_prompt
    else (base ++ " " ++ positive_prompt).trim
  else positive_prompt

/-- The parameters of one `generate_images` job; `seed_value` is the
resolved seed (`int(seed)` or the random draw). -/
structure ImageParams where
  positive_prompt : String
  negative_prompt : Option String
  width : Int
  height : Int
  steps : Int
  seed_value : Int

/-- The parameter substitution of `generate_images` (lines 1017-1071),
applied to the working copy of the template. -/
def applyImageParams (w0 : JVal) (p : ImageParams) : JVal :=
  let base_positive := firstText w0 ["6", "15"] "text"
  let new_positive := buildPositive base_positive p.positive_prompt
  let w1 := updateNodeInput w0 "6" "text" (.str new_positive)
  let w2 := updateNodeInput w1 "15" "text" (.str new_positive)
  let w3 :=
    match p.negative_prompt with
    | some np =>
      if np ≠ "" then
        let base_negative := firstText w2 ["7", "16"] "text"
        let new_negative :=
          if base_negative ≠ "" then (base_negative ++ " " ++ np).trim else np
        updateNodeInput (updateNodeInput w2 "7" "text" (.str new_negative))
          "16" "text" (.str new_negative)
      else w2
    | none => w2
  let w4 := updateNodeInput (updateNodeInput w3 "5" "width" (.num p.width))
    "5" "height" (.num p.height)
  let w5 := updateExistingInput w4 "10" "steps" (.num p.steps)
  let w6 := updateExistingInput w5 "10" "noise_seed" (.num p.seed_value)
  let w7 := updateExistingInput w6 "11" "steps" (.num p.steps)
  updateExistingInput w7 "11" "noise_seed" (.num p.seed_value)

/-- `generate_images` as a transition on the module-level template
store: the working document is the JSON round-trip copy of
`BASE_WORKFLOW`, the substitution mutates only that copy, and the
stored template binding is never reassigned — the first component is
the store after the call, the second the submitted job document. -/
def generate_images_submission (base : JVal) (p : ImageParams) : JVal × JVal :=
  let workflow := jsonRoundtrip base
  (base, applyImageParams workflow p)

/-- `round(max(w*h/1_000_000, 0.1), 2)` in hundredths of a megapixel
(ties of the float rounding are modelled as round-half-up). -/
def megapixelsCenti (w h : Int) : Int :=
  max (Int.ofNat (((w * h).toNat + 5000) / 10000)) 10

/-- The parameters of one `generate_image_edit` job. -/
structure EditParams where
  positive_prompt : String
  width : Option Int
  height : Option Int
  steps : Int
  seed_value : Int

/-- The parameter substitution of `generate_image_edit` (lines
1225-1251), applied to the working copy; `upload_name` is the name the
upload bridge returned before the substitution. -/
def applyEditParams (w0 : JVal) (upload_name : String) (p : EditParams) : JVal :=
  let w1 := updateNodeInput w0 "78" "image" (.str upload_name)
  let w2 := updateNodeInput w1 "111" "prompt" (.str p.positive_prompt)
  let w3 := updateNodeInput w2 "110" "prompt" (.str "")
  let w4 :=
    match p.width, p.height with
    | some wv, some hv =>
      let a := updateNodeInput (updateNodeInput w3 "112" "width" (.num wv))
        "112" "height" (.num hv)
      updateNodeInput a "93" "megapixels" (.num (megapixelsCenti wv hv))
    | _, _ => w3
  let w5 := updateNodeInput w4 "3" "steps" (.num p.steps)
  updateNodeInput w5 "3" "seed" (.num p.seed_value)

/-- `generate_image_edit` as a transition on the `EDIT_WORKFLOW` store,
as `generate_images_submission` above. -/
def generate_image_edit_submission (base : JVal) (upload_name : String)
    (p : EditParams) : JVal × JVal :=
  let workflow := jsonRoundtrip base
  (base, applyEditParams workflow upload_name p)

/-! ## Job submission (`queue_prompt`) -/

/-- Deterministic model of the `uuid.uuid4()` stream: the process draws
fresh values from a counter. -/
def uuidString (n : Nat) : String := "uuid-" ++ toString n

structure ProcState where
  uuidCounter : Nat

def uuid4 (s : ProcState) : String × ProcState :=
  (uuidString s.uuidCounter, ⟨s.uuidCounter + 1⟩)

/-- Evaluation of the `def queue_prompt(workflow,
client_id=str(uuid.uuid4()))` line itself: Python evaluates the default
expression once, when the function object is created at import time. -/
def queuePromptModuleInit (s : ProcState) : String × ProcState := uuid4 s

/-- The serialised request body `{"prompt": workflow, "client_id": client_id}`. -/
structure PromptRequest where
  prompt : JVal
  client_id : String

/-- The body sent by one `queue_prompt` call: a call that omits
`client_id` uses the default computed at definition time and draws no
fresh UUID. -/
def queuePromptBody (defaultClientId : String) (workflow : JVal)
    (client_id : Option String) : PromptRequest :=
  { prompt := workflow, client_id := client_id.getD defaultClientId }

/-- An HTTP response of the queue endpoint: status, raw body text, and
the parsed JSON body (`none` when unparsable). -/
structure HttpResponse where
  status : Nat
  text : String
  jsonBody : Option JVal

/-- Response handling of `queue_prompt`: 200 returns `response.json()`;
anything else raises `Exception(f"Error sending prompt: {status} -
{text}")`, which the surrounding `except` re-raises unchanged. -/
def queuePromptHandle (resp : HttpResponse) : Except String JVal :=
  if resp.status = 200 then
    match resp.jsonBody with
    | some j => .ok j
    | none => .error "unparsable response body"
  else .error ("Error sending prompt: " ++ toString resp.status ++ " - " ++ resp.text)

/-- `queue_prompt(workflow, client_id)`: build the body, perform the
POST (modelled by `respond`), handle the response. -/
def queue_prompt (defaultClientId : String) (workflow : JVal)
    (client_id : Option String) (respond : PromptRequest → HttpResponse) :
    Except String JVal :=
  queuePromptHandle (respond (queuePromptBody defaultClientId workflow client_id))

/-! ## Concrete instances used by the theorems below -/

/-- A node output block carrying both an `image` and an `images` key,
with distinct payloads. -/
def blockBothKeys : NodeOutputs :=
  [("image", .list [MediaItem.str "wrong.png"]),
   ("images", .list [MediaItem.str "right.png"])]

/-- A full-history body whose only entry is stored under a key that is
NOT the job id that will be asked for. -/
def histOtherKey : History :=
  [("q", ⟨some [("19", [("images", MediaVal.list [MediaItem.str "x.png"])])]⟩)]

/-- A watcher environment whose resolver yields nothing on the
immediate check and a bare-string descriptor on the next call (the one
the post-timeout fallback performs when `max_wait = 0`). -/
def envLateString : WatchEnv :=
  ⟨fun n => if n = 1 then some [MediaItem.str "a.png"] else none, fun _ => false⟩

/-- A watcher environment whose resolver never yields output. -/
def envNever : WatchEnv := ⟨fun _ => none, fun _ => false⟩

/-! # Theorems -/

/-! ## Helper lemmas -/

mutual

theorem jsonRoundtrip_id : (v : JVal) → jsonRoundtrip v = v
  | .str _ => rfl
  | .num _ => rfl
  | .bool _ => rfl
  | .null => rfl
  | .arr xs => congrArg JVal.arr (jsonRoundtripList_id xs)
  | .obj fs => congrArg JVal.obj (jsonRoundtripFields_id fs)

theorem jsonRoundtripList_id : (xs : List JVal) → jsonRoundtripList xs = xs
  | [] => rfl
  | x :: xs => by
      rw [jsonRoundtripList, jsonRoundtrip_id x, jsonRoundtripList_id xs]

theorem jsonRoundtripFields_id : (fs : List (String × JVal)) → jsonRoundtripFields fs = fs
  | [] => rfl
  | (k, v) :: rest => by
      rw [jsonRoundtripFields, jsonRoundtrip_id v, jsonRoundtripFields_id rest]

end

/-! ## C9 — templates are deep-copied before parameter substitution -/

/-- C9: for every invocation of `generate_images` (resp.
`generate_image_edit`), the master template `BASE_WORKFLOW` (resp.
`EDIT_WORKFLOW`) is deep-copied (`json.loads(json.dumps(...))`) before
any parameter substitution: the stored template is unchanged after each
call, and two successive submissions with different parameters both
substitute into the pristine original, i.e. mutate independent copies. -/
theorem generate_template_deepcopy_immutable :
    ∀ (base editBase : JVal) (p1 p2 : ImageParams) (uname1 uname2 : String)
      (q1 q2 : EditParams),
    (generate_images_submission base p1).1 = base ∧
    (generate_images_submission (generate_images_submission base p1).1 p2).1 = base ∧
    (generate_images_submission base p1).2 = applyImageParams base p1 ∧
    (generate_images_submission (generate_images_submission base p1).1 p2).2
        = applyImageParams base p2 ∧
    (generate_image_edit_submission editBase uname1 q1).1 = editBase ∧
    (generate_image_edit_submission
        (generate_image_edit_submission editBase uname1 q1).1 uname2 q2).2
      = applyEditParams editBase uname2 q2 := by
  intro base editBase p1 p2 uname1 uname2 q1 q2
  refine ⟨rfl, rfl, ?_, ?_, rfl, ?_⟩ <;>
    simp [generate_images_submission, generate_image_edit_submission, jsonRoundtrip_id]

/-! ## C10 — `queue_prompt` default `client_id` is fixed at definition time -/

/-- C10: the default of `queue_prompt`'s `client_id` parameter is
`str(uuid.uuid4())` evaluated once when the `def` line runs, so two
calls that omit `client_id` put the identical string (the single UUID
drawn at definition time) in their request bodies, instead of a fresh
UUID per call. -/
theorem queue_prompt_default_client_id_fixed :
    ∀ (s : ProcState) (w1 w2 : JVal),
    (queuePromptBody (queuePromptModuleInit s).1 w1 none).client_id
        = (queuePromptBody (queuePromptModuleInit s).1 w2 none).client_id ∧
    (queuePromptBody (queuePromptModuleInit s).1 w1 none).client_id
        = uuidString s.uuidCounter ∧
    (queuePromptModuleInit s).2.uuidCounter = s.uuidCounter + 1 := by
  intro s w1 w2
  exact ⟨rfl, rfl, rfl⟩

/-! ## C7 — `queue_prompt` raises on non-200, returns parsed body on 200 -/

/-- C7: when the queue endpoint answers with a non-200 status,
`queue_prompt` raises an error carrying the HTTP status and the raw
body text, and the surrounding `except` re-raises it to the caller; on
a 200 response the parsed JSON body is returned. -/
theorem queue_prompt_non200_raises :
    ∀ (d : String) (w : JVal) (cid : Option String) (resp : HttpResponse),
    (resp.status ≠ 200 →
      queue_prompt d w cid (fun _ => resp)
        = .error ("Error sending prompt: " ++ toString resp.status ++ " - " ++ resp.text)) ∧
    (resp.status = 200 → ∀ j, resp.jsonBody = some j →
      queue_prompt d w cid (fun _ => resp) = .ok j) := by
  intro d w cid resp
  constructor
  · intro h
    simp [queue_prompt, queuePromptHandle, h]
  · intro h j hj
    simp [queue_prompt, queuePromptHandle, h, hj]

/-- Witness for C7 at a concrete rejected submission. -/
theorem queue_prompt_non200_raises_witness :
    queue_prompt "d" JVal.null none (fun _ => ⟨500, "boom", none⟩)
      = .error ("Error sending prompt: " ++ toString (500 : Nat) ++ " - " ++ "boom") :=
  (queue_prompt_non200_raises "d" JVal.null none ⟨500, "boom", none⟩).1 (by decide)

/-! ## C4 — requested media kind is searched before any fallback key -/

/-- C4: for a node output block containing the requested kind `images`
(whatever else, e.g. an `image` key, it also contains), the resolver
returns the value stored under `images`: the caller-requested kind is
the head of the key search order, the first key found wins, and a
scalar value is wrapped in a single-element list. -/
theorem get_media_outputs_requested_key_priority :
    ∀ (pid n : String) (block : NodeOutputs) (v : MediaVal)
      (full : FetchResult History),
    block.lookup "images" = some v →
    get_media_outputs ⟨.success ⟨some [(n, block)], []⟩, full⟩ pid (some [n]) "images"
        = some (mediaValAsList v) ∧
    (∀ x, mediaValAsList (.single x) = [x]) ∧
    possibleKeys "images" = ["images", "image", "files"] := by
  intro pid n block v full h
  refine ⟨?_, fun _ => rfl, by decide⟩
  simp [get_media_outputs, defaultTargets, perJobSearch, possibleKeys,
    searchNodes, searchKeys, firstSome, List.lookup, h]

/-- Witness for C4: a block carrying both `image` (stored first) and
`images`; the `images` payload is returned. -/
theorem get_media_outputs_requested_key_priority_witness :
    get_media_outputs ⟨.success ⟨some [("19", blockBothKeys)], []⟩, .transportError⟩
        "p" (some ["19"]) "images" = some [MediaItem.str "right.png"] :=
  (get_media_outputs_requested_key_priority "p" "19" blockBothKeys
    (.list [MediaItem.str "right.png"]) .transportError (by decide)).1

/-! ## C5 — node order dominates key order -/

/-- C5: the target-node list is a search priority, not a filter: the
first node (in caller order) whose block yields any acceptable key
wins; a node that is absent, or present without any acceptable key, is
skipped and the next node is tried — in particular with
`target_nodes = [A, B]` where only `B` has output, `B`'s media is
returned. -/
theorem get_media_outputs_node_order_priority :
    ∀ (pid A B mk : String) (blockB : NodeOutputs) (v : MediaVal)
      (full : FetchResult History),
    A ≠ B → blockB.lookup mk = some v →
    get_media_outputs ⟨.success ⟨some [(B, blockB)], []⟩, full⟩ pid (some [A, B]) mk
        = some (mediaValAsList v) ∧
    (∀ (outs : List (String × NodeOutputs)) tn keys n block m,
      outs.lookup n = some block → searchKeys block keys = some m →
      searchNodes outs (n :: tn) keys = some m) ∧
    (∀ (outs : List (String × NodeOutputs)) tn keys n,
      outs.lookup n = none → searchNodes outs (n :: tn) keys = searchNodes outs tn keys) ∧
    (∀ (outs : List (String × NodeOutputs)) tn keys n block,
      outs.lookup n = some block → searchKeys block keys = none →
      searchNodes outs (n :: tn) keys = searchNodes outs tn keys) := by
  intro pid A B mk blockB v full hAB h
  obtain ⟨rest, hrest⟩ : ∃ rest, possibleKeys mk = mk :: rest := by
    unfold possibleKeys
    split_ifs <;> exact ⟨_, rfl⟩
  refine ⟨?_, ?_, ?_, ?_⟩
  · simp [get_media_outputs, defaultTargets, perJobSearch, firstSome,
      searchNodes, List.lookup, beq_eq_false_iff_ne.mpr hAB, hrest, searchKeys, h]
  · intro outs tn keys n block m h1 h2
    simp [searchNodes, h1, h2]
  · intro outs tn keys n h1
    simp [searchNodes, h1]
  · intro outs tn keys n block h1 h2
    simp [searchNodes, h1, h2]

/-- Witness for C5: only node `"60"` has output, yet it is second in
the target list. -/
theorem get_media_outputs_node_order_priority_witness :
    get_media_outputs
        ⟨.success ⟨some [("60", [("images", MediaVal.list [MediaItem.str "b.png"])])], []⟩,
          .transportError⟩
        "p" (some ["19", "60"]) "images" = some [MediaItem.str "b.png"] :=
  (get_media_outputs_node_order_priority "p" "19" "60" "images"
    [("images", MediaVal.list [MediaItem.str "b.png"])]
    (.list [MediaItem.str "b.png"]) .transportError (by decide) (by decide)).1

/-! ## C8 — full-history fallback structure -/

theorem firstSome_map_filter {α β : Type} (f : α → Option β) (p : α → Bool)
    (l : List α) (h : ∀ e, p e = false → f e = none) :
    firstSome (l.map f) = firstSome ((l.filter p).map f) := by
  induction l with
  | nil => rfl
  | cons e rest ih =>
    cases hp : p e with
    | true =>
      cases hfe : f e <;> simp [List.filter_cons, hp, firstSome, hfe, ih]
    | false =>
      simp [List.filter_cons, hp, firstSome, h e hp, ih]

/-- C8 counterexample: the per-job endpoint raises, the full history
holds matching media — but only under a key different from the job id.
The claimed "scan every entry's outputs substructure" (modelled by
`lastResortSpecScan`) would find it; `get_media_outputs` returns
`none`, because its last-resort loop skips every entry whose key is not
the job id. -/
theorem get_media_outputs_last_resort_cex :
    get_media_outputs ⟨.transportError, .success histOtherKey⟩ "p" (some ["19"]) "images"
        = none ∧
    lastResortSpecScan histOtherKey ["19"] (possibleKeys "images")
        = some [MediaItem.str "x.png"] := by
  constructor <;> rfl

/-- C8 amended: when the per-job endpoint fails (transport error or no
match), the resolver falls back to the full history: a direct lookup of
the job id as a dict key followed by a last-resort loop that iterates
every entry but only examines entries whose key equals the job id (so
entries under other keys are never searched); if all levels fail, or a
transport error hits the full-history fetch too, it returns `None`,
never raising. -/
theorem get_media_outputs_fallback_amended :
    ∀ (pid mk : String) (tno : Option (List String)) (hist : History)
      (hd : HistoryData) (s : Nat),
    (get_media_outputs ⟨.transportError, .success hist⟩ pid tno mk
        = fullHistorySearch hist pid (defaultTargets tno) (possibleKeys mk)) ∧
    (perJobSearch hd pid (defaultTargets tno) (possibleKeys mk) = none →
      get_media_outputs ⟨.success hd, .success hist⟩ pid tno mk
        = fullHistorySearch hist pid (defaultTargets tno) (possibleKeys mk)) ∧
    (fullHistorySearch hist pid (defaultTargets tno) (possibleKeys mk)
        = match directSearch hist pid (defaultTargets tno) (possibleKeys mk) with
          | some m => some m
          | none => lastResort hist pid (defaultTargets tno) (possibleKeys mk)) ∧
    (lastResort hist pid (defaultTargets tno) (possibleKeys mk)
        = lastResort (hist.filter (fun e => e.1 == pid)) pid
            (defaultTargets tno) (possibleKeys mk)) ∧
    (get_media_outputs ⟨.transportError, .transportError⟩ pid tno mk = none) ∧
    (get_media_outputs ⟨.transportError, .httpError s⟩ pid tno mk = none) := by
  intro pid mk tno hist hd s
  refine ⟨rfl, ?_, rfl, ?_, rfl, rfl⟩
  · intro h
    simp [get_media_outputs, h]
  · unfold lastResort
    exact firstSome_map_filter _ _ hist (by
      intro e he
      have : e.1 ≠ pid := by simpa using he
      simp [this])

/-- Witness for C8 amended: a per-job body without candidates falls
through to the full-history search. -/
theorem get_media_outputs_fallback_amended_witness :
    get_media_outputs ⟨.success ⟨none, []⟩, .success histOtherKey⟩ "p" (some ["19"]) "images"
      = fullHistorySearch histOtherKey "p" (defaultTargets (some ["19"]))
          (possibleKeys "images") :=
  (get_media_outputs_fallback_amended "p" "images" (some ["19"]) histOtherKey
    ⟨none, []⟩ 0).2.1 rfl

/-! ## C1 / C2 — watcher termination and normalisation -/

theorem validMedia_normalized (l : List MediaItem) :
    ∀ it ∈ validMedia l, isNormalizedItem it = true := by
  intro it h
  simp only [validMedia, List.mem_filterMap] at h
  obtain ⟨a, -, ha⟩ := h
  cases a with
  | dict d =>
    simp only [normItem, Option.some_inj] at ha
    rw [← ha]
    rfl
  | str s =>
    simp only [normItem, Option.some_inj] at ha
    rw [← ha]
    rfl
  | other => simp [normItem] at ha

theorem foundOf_normalized (r : Option (List MediaItem)) :
    ∀ it ∈ foundOf r, isNormalizedItem it = true := by
  intro it h
  cases r with
  | none => simp [foundOf] at h
  | some l =>
    by_cases he : l.isEmpty
    · simp [foundOf, he] at h
    · rw [foundOf, if_neg he] at h
      exact validMedia_normalized l it h

theorem foundOf_no_output (r : Option (List MediaItem))
    (h : r = none ∨ r = some []) : foundOf r = [] := by
  rcases h with h | h <;> simp [h, foundOf]

theorem pollLoop_items_normalized (env : WatchEnv) (mW : Nat) :
    ∀ fuel c e, mW ≤ e + fuel →
      ∀ it ∈ (pollLoop env mW c e).1, isNormalizedItem it = true := by
  intro fuel
  induction fuel with
  | zero =>
    intro c e hle it hit
    unfold pollLoop at hit
    rw [dif_neg (by omega)] at hit
    simp at hit
  | succ n ih =>
    intro c e hle it hit
    unfold pollLoop at hit
    by_cases hlt : e < mW
    · rw [dif_pos hlt] at hit
      by_cases h1 : foundOf (env.resolve c) = []
      · rw [if_pos h1] at hit
        by_cases hc : env.completedAt e = true
        · rw [if_pos hc] at hit
          by_cases h2 : foundOf (env.resolve (c + 1)) = []
          · rw [if_pos h2] at hit
            exact ih (c + 2) (e + 5) (by omega) it hit
          · rw [if_neg h2] at hit
            exact foundOf_normalized _ it hit
        · rw [if_neg hc] at hit
          exact ih (c + 1) (e + 1) (by omega) it hit
      · rw [if_neg h1] at hit
        exact foundOf_normalized _ it hit
    · rw [dif_neg hlt] at hit
      simp at hit

theorem pollLoop_no_output (env : WatchEnv) (mW : Nat)
    (h : ∀ n, env.resolve n = none ∨ env.resolve n = some []) :
    ∀ fuel c e, mW ≤ e + fuel → (pollLoop env mW c e).1 = [] := by
  intro fuel
  induction fuel with
  | zero =>
    intro c e hle
    unfold pollLoop
    rw [dif_neg (by omega)]
  | succ n ih =>
    intro c e hle
    unfold pollLoop
    by_cases hlt : e < mW
    · rw [dif_pos hlt]
      rw [if_pos (foundOf_no_output _ (h c))]
      by_cases hc : env.completedAt e = true
      · rw [if_pos hc, if_pos (foundOf_no_output _ (h (c + 1)))]
        exact ih (c + 2) (e + 5) (by omega)
      · rw [if_neg hc]
        exact ih (c + 1) (e + 1) (by omega)
    · rw [dif_neg hlt]

/-- With `maxWait = 0` the loop condition fails immediately. -/
theorem pollLoop_zero (env : WatchEnv) (c e : Nat) :
    pollLoop env 0 c e = ([], c) := by
  unfold pollLoop
  rw [dif_neg (by omega)]

/-- C1: against an engine whose resolver never yields output, the
watcher — for every `max_wait`, including `0` — terminates with the
empty list: timeout with no output is a return value, not an error
(every failure mode of the resolver is already absorbed into its `None`
result, and the watcher body has no other raising operation). -/
theorem wait_for_completion_no_output_returns_empty :
    ∀ (env : WatchEnv) (maxWait : Nat),
    (∀ n, env.resolve n = none ∨ env.resolve n = some []) →
    wait_for_completion env maxWait = [] := by
  intro env mW h
  have h0 : foundOf (env.resolve 0) = [] := foundOf_no_output _ (h 0)
  have hp : (pollLoop env mW 1 0).1 = [] :=
    pollLoop_no_output env mW h mW 1 0 (by omega)
  have hfin : (env.resolve (pollLoop env mW 1 0).2).getD [] = [] := by
    rcases h (pollLoop env mW 1 0).2 with h' | h' <;> simp [h']
  unfold wait_for_completion
  simp [h0, hp, hfin]

/-- Witness for C1 at `max_wait = 0` (P4 of the specification). -/
theorem wait_for_completion_no_output_returns_empty_witness :
    wait_for_completion envNever 0 = [] :=
  wait_for_completion_no_output_returns_empty envNever 0 (fun _ => Or.inl rfl)

/-- C2 counterexample: nothing is found until the post-timeout final
resolution, which yields a bare string; `wait_for_completion` returns
it raw — `["a.png"]`, not `[{filename: "a.png", subfolder: "",
type: "output"}]` — so not every return path normalises. -/
theorem wait_for_completion_final_path_unnormalized_cex :
    wait_for_completion envLateString 0 = [MediaItem.str "a.png"] ∧
    isNormalizedItem (MediaItem.str "a.png") = false := by
  constructor
  · unfold wait_for_completion
    simp [envLateString, foundOf, pollLoop_zero]
  · rfl

/-- C2 amended: the immediate check and the poll loop return only
normalised descriptors (dict items keep `filename`, `subfolder`
defaulting to `""`, `type` defaulting to `"output"`; bare strings are
wrapped; items normalising to an empty filename are kept), but when
both produce nothing the post-timeout final resolution returns the raw
resolver result without normalisation. -/
theorem wait_for_completion_normalization_amended :
    ∀ (env : WatchEnv) (maxWait c e : Nat),
    (∀ it ∈ foundOf (env.resolve 0), isNormalizedItem it = true) ∧
    (∀ it ∈ (pollLoop env maxWait c e).1, isNormalizedItem it = true) ∧
    (foundOf (env.resolve 0) = [] → (pollLoop env maxWait 1 0).1 = [] →
      wait_for_completion env maxWait
        = (env.resolve (pollLoop env maxWait 1 0).2).getD []) := by
  intro env mW c e
  refine ⟨foundOf_normalized _, ?_, ?_⟩
  · exact pollLoop_items_normalized env mW (mW - e) c e (by omega)
  · intro h1 h2
    unfold wait_for_completion
    simp [h1, h2]

/-- Witness for C2 amended, on the same late-string environment. -/
theorem wait_for_completion_normalization_amended_witness :
    wait_for_completion envLateString 0
      = (envLateString.resolve (pollLoop envLateString 0 1 0).2).getD [] :=
  (wait_for_completion_normalization_amended envLateString 0 1 0).2.2 rfl
    (by rw [pollLoop_zero])

/-! ## C3 — persisted-file extension priority -/

/-- C3 counterexample: descriptor filename `a.png` with an explicit
format hint `mp4`.  The claimed priority (format hint first, modelled
by `persistExtensionSpecOrder`) gives `.mp4`; the code keeps the
filename's own `.png` — the filename extension is consulted before the
format hint. -/
theorem persist_extension_priority_cex :
    persist_media_extension "a.png" (some "mp4") "" "videos" = ".png" ∧
    persistExtensionSpecOrder "a.png" (some "mp4") "" "videos" = ".mp4" := by
  constructor <;> rfl

/-- C3 amended: the extension is determined in this priority order:
the descriptor's own filename extension first, then the explicit format
hint (when non-empty), then the guess from the response `Content-Type`,
then the category default (`.png` for images — and any non-video
category — and `.mp4` for videos). -/
theorem persist_extension_priority_amended :
    ∀ (fn : String) (fh : Option String) (ct cat : String),
    (splitextExt fn ≠ "" → persist_media_extension fn fh ct cat = splitextExt fn) ∧
    (splitextExt fn = "" → ∀ s, fh = some s → s ≠ "" →
      persist_media_extension fn fh ct cat
        = "." ++ String.mk (s.toList.dropWhile (fun c => c = '.'))) ∧
    (splitextExt fn = "" → (fh = none ∨ fh = some "") →
      persist_media_extension fn fh ct cat = contentTypeExt ct cat) ∧
    (ct ≠ "" → contentTypeExt ct cat
        = (guessExtension ((ct.splitOn ";").headD "")).getD (categoryDefault cat)) ∧
    (ct = "" → contentTypeExt ct cat = categoryDefault cat) ∧
    categoryDefault "images" = ".png" ∧ categoryDefault "videos" = ".mp4" := by
  intro fn fh ct cat
  refine ⟨?_, ?_, ?_, ?_, ?_, by decide, by decide⟩
  · intro h
    unfold persist_media_extension
    rw [if_pos h]
  · intro h s hs hne
    unfold persist_media_extension
    rw [if_neg (by simp [h]), hs]
    simp [hne]
  · intro h hfh
    unfold persist_media_extension
    rw [if_neg (by simp [h])]
    rcases hfh with h' | h' <;> simp [h']
  · intro h
    unfold contentTypeExt
    rw [if_pos h]
    cases guessExtension ((ct.splitOn ";").headD "") <;> simp
  · intro h
    unfold contentTypeExt
    rw [if_neg (by simp [h])]

/-- Witness for C3 amended: the filename extension wins. -/
theorem persist_extension_priority_amended_witness :
    persist_media_extension "a.png" (some "mp4") "" "videos" = splitextExt "a.png" :=
  (persist_extension_priority_amended "a.png" (some "mp4") "" "videos").1 (by decide)

/-! ## C6 — path containment of `resolve_local_media_path` -/

theorem isPrefixOf_iff {α : Type} [BEq α] [LawfulBEq α] (l₁ l₂ : List α) :
    List.isPrefixOf l₁ l₂ = true ↔ l₁ <+: l₂ := by
  induction l₁ generalizing l₂ with
  | nil => simp [List.isPrefixOf]
  | cons a l ih =>
    cases l₂ with
    | nil => simp [List.isPrefixOf]
    | cons b l₂ => simp [List.isPrefixOf, List.cons_prefix_cons, ih]

theorem splitSlash_no_sep (cs : List Char) (h : cs.contains '/' = false) :
    splitSlash cs = [cs] := by
  induction cs with
  | nil => rfl
  | cons c rest ih =>
    rw [List.contains_cons] at h
    obtain ⟨h1, h2⟩ := Bool.or_eq_false_iff.mp h
    have hc : ¬ c = '/' := by
      intro hx
      simp [hx] at h1
    unfold splitSlash
    rw [if_neg hc, ih h2]

theorem splitPath_single (f : String) (hne : f.toList ≠ [])
    (h : f.toList.contains '/' = false) : splitPath f = [f.toList] := by
  unfold splitPath
  rw [splitSlash_no_sep _ h]
  have he : f.toList.isEmpty = false := by
    cases hl : f.toList with
    | nil => exact absurd hl hne
    | cons a l => rfl
  simp [List.filter_cons, he]
  exact hne

theorem splitPath_mem_ne_nil (s : String) : ∀ x ∈ splitPath s, x ≠ [] := by
  intro x hx
  unfold splitPath at hx
  have := (List.mem_filter.mp hx).2
  simpa using this

theorem normAux_append (xs ys : List (List Char)) :
    ∀ acc, normAux acc (xs ++ ys) = normAux (normAux acc xs).reverse ys := by
  induction xs with
  | nil => intro acc; simp [normAux]
  | cons c xs ih =>
    intro acc
    by_cases h1 : c = ['.']
    · simp only [List.cons_append, normAux, if_pos h1]
      exact ih acc
    · by_cases h2 : c = ['.', '.']
      · simp only [List.cons_append, normAux, if_neg h1, if_pos h2]
        exact ih acc.tail
      · simp only [List.cons_append, normAux, if_neg h1, if_neg h2]
        exact ih (c :: acc)

theorem renderAbs_append (comps : List (List Char)) (f : List Char)
    (h : comps ≠ []) :
    renderAbs (comps ++ [f]) = renderAbs comps ++ '/' :: f := by
  unfold renderAbs
  rw [if_neg (by simp), if_neg (by simp [h])]
  simp [List.flatMap_append]

theorem renderAbs_length_lt (init : List (List Char)) (last' : List Char)
    (h : last' ≠ []) :
    (renderAbs init).length < (renderAbs (init ++ [last'])).length := by
  have hl : 0 < last'.length := List.length_pos.mpr h
  cases init with
  | nil =>
    simp [renderAbs, List.flatMap]
    exact hl
  | cons c cs =>
    rw [renderAbs_append (c :: cs) last' (by simp)]
    simp

/-- C6 amended: filenames containing the running OS's separator (or
alternate separator) are rejected before any filesystem access — in
particular `"../../etc/passwd"` and its backslash variant under the
Windows separators, and `"../../etc/passwd"` under POSIX — and every
accepted filename resolves inside the output root: strictly below it,
except for the filename `"."`, which is accepted and resolves to the
output root itself. -/
theorem resolve_local_media_path_containment_amended :
    ∀ (dir f : String),
    normAux [] (splitPath dir) = splitPath dir →
    splitPath dir ≠ [] →
    ((f.toList.contains '/' = true →
        resolve_local_media_path '/' none dir f = .error "Invalid local filename") ∧
     (∀ p, resolve_local_media_path '/' none dir f = .ok p →
        p.toList = renderAbs (splitPath dir) ∨
        strictlyInside (renderAbs (splitPath dir)) p.toList = true) ∧
     resolve_local_media_path '/' none dir "."
        = Except.ok (String.mk (renderAbs (splitPath dir))) ∧
     resolve_local_media_path '\\' (some '/') dir "../../etc/passwd"
        = .error "Invalid local filename" ∧
     resolve_local_media_path '\\' (some '/') dir "..\\..\\etc\\passwd"
        = .error "Invalid local filename" ∧
     resolve_local_media_path '/' none dir "../../etc/passwd"
        = .error "Invalid local filename") := by
  intro dir f hnorm hne
  refine ⟨?_, ?_, ?_, rfl, rfl, rfl⟩
  · intro hc
    have hfl : f.toList ≠ [] := by
      intro h0
      rw [h0] at hc
      simp [List.contains] at hc
    unfold resolve_local_media_path
    rw [if_neg (by simpa using hfl), if_pos (by simp [sepHit]; simpa using hc)]
  · intro p hp
    by_cases hfe : f.toList.isEmpty = true
    · unfold resolve_local_media_path at hp
      rw [if_pos hfe] at hp
      simp at hp
    · by_cases hsep : sepHit '/' none f = true
      · unfold resolve_local_media_path at hp
        rw [if_neg hfe, if_pos hsep] at hp
        simp at hp
      · have hc : f.toList.contains '/' = false := by
          simpa [sepHit] using hsep
        have hfl : f.toList ≠ [] := by
          intro h0
          rw [h0] at hfe
          simp at hfe
        have hsp : splitPath f = [f.toList] := splitPath_single f hfl hc
        unfold resolve_local_media_path at hp
        rw [if_neg hfe, if_neg hsep, hsp, normAux_append, hnorm] at hp
        by_cases h1 : f.toList = ['.']
        · left
          rw [h1] at hp
          have hn1 : normAux (splitPath dir).reverse [['.']] = splitPath dir := by
            simp [normAux]
          rw [hn1, if_pos ((isPrefixOf_iff _ _).mpr (List.prefix_refl _))] at hp
          injection hp with h
          rw [← h]
          exact rfl
        · by_cases h2 : f.toList = ['.', '.']
          · exfalso
            rw [h2] at hp
            have hn2 : normAux (splitPath dir).reverse [['.', '.']]
                = ((splitPath dir).reverse.tail).reverse := by simp [normAux]
            rw [hn2] at hp
            rcases (splitPath dir).eq_nil_or_concat' with hnil | ⟨init, last', hD⟩
            · exact hne hnil
            · have hrev : ((splitPath dir).reverse.tail).reverse = init := by
                rw [hD]
                simp
              have hlast : last' ≠ [] :=
                splitPath_mem_ne_nil dir last' (by rw [hD]; simp)
              have hlt : (renderAbs init).length < (renderAbs (splitPath dir)).length := by
                rw [hD]
                exact renderAbs_length_lt init last' hlast
              have hpf : ¬ List.isPrefixOf (renderAbs (splitPath dir))
                  (renderAbs init) = true := by
                intro hb
                have := List.IsPrefix.length_le ((isPrefixOf_iff _ _).mp hb)
                omega
              rw [hrev, if_neg hpf] at hp
              simp at hp
          · right
            have h1' : ¬ f.data = ['.'] := h1
            have h2' : ¬ f.data = ['.', '.'] := h2
            have hn3 : normAux (splitPath dir).reverse [f.toList]
                = splitPath dir ++ [f.toList] := by
              simp [normAux, h1', h2']
            rw [hn3, renderAbs_append _ _ hne] at hp
            rw [if_pos ((isPrefixOf_iff _ _).mpr (List.prefix_append _ _))] at hp
            injection hp with h
            rw [← h]
            show List.isPrefixOf (renderAbs (splitPath dir) ++ ['/'])
                (renderAbs (splitPath dir) ++ '/' :: f.toList) = true
            have harr : renderAbs (splitPath dir) ++ '/' :: f.toList
                = (renderAbs (splitPath dir) ++ ['/']) ++ f.toList := by simp
            rw [harr]
            exact (isPrefixOf_iff _ _).mpr (List.prefix_append _ _)
  · have hdot : splitPath "." = [['.']] := rfl
    unfold resolve_local_media_path
    rw [if_neg (by decide), if_neg (by decide), hdot, normAux_append, hnorm]
    have hn1 : normAux (splitPath dir).reverse [['.']] = splitPath dir := by
      simp [normAux]
    rw [hn1, if_pos ((isPrefixOf_iff _ _).mpr (List.prefix_refl _))]

/-- C6 counterexample: the filename `"."` contains no separator, is
accepted, and resolves to the output root itself — inside, but not
STRICTLY inside, the output root. -/
theorem resolve_local_media_path_dot_cex :
    resolve_local_media_path '/' none "/srv/output" "." = Except.ok "/srv/output" ∧
    strictlyInside "/srv/output".toList "/srv/output".toList = false := by
  constructor <;> rfl

/-- Witness for C6 amended: the traversal filename of P5 is rejected
under the POSIX separator. -/
theorem resolve_local_media_path_containment_amended_witness :
    resolve_local_media_path '/' none "/srv/output" "../../etc/passwd"
      = .error "Invalid local filename" :=
  ((resolve_local_media_path_containment_amended "/srv/output" "../../etc/passwd"
    (by decide) (by decide)).1) (by decide)
